import Mathlib

/-!
Shallow embedding of the LMStudio Go client binding
(repository mateuszmierzwinski/lmstudio, files src/binding.go and
src/pkg/model/model.go).

Modelling conventions:
* Go slices of messages are Lean lists; a nil slice and an empty slice are
  both `[]` (the code never distinguishes them observably).
* The Go map `map[string][]LMAPIMessage` is an association list `HistMap`
  with `histGet` returning `[]` for an absent key (Go's zero-value read)
  and `histSet` replacing or adding an entry; a nil map is `Option.none`.
* `float64` temperatures are modelled as `Rat`: the code only threads the
  literal `0.3` through, performing no floating-point arithmetic, so the
  exact rational `3/10` stands for the literal.
* The single `HTTPClient.Do` call of `chatRequest` is an oracle
  `transport : LMStudioChatRequest → HTTPOutcome`; the `os.OpenFile` write
  in `persistHistory` is an oracle `DiskOutcome`.  `json.Marshal` of the
  request and `http.NewRequest` cannot fail for the shapes involved and are
  modelled as succeeding; headers and the URL are not modelled (no claim
  touches them).  `io.ReadAll` of an error body is modelled as succeeding.
* `encoding/json` is modelled at the JSON-value level with the inductive
  `JVal`: a file or body is either `notJson`/`invalid` raw bytes (syntax
  error on decode) or a parsed JSON value (shape-checked on decode).
  Go's documented decode semantics are kept: `null` leaves the current
  value in place, unknown object fields are ignored, decoding into an
  existing non-nil map keeps entries absent from the JSON object, object
  fields are processed in order with later duplicates overwriting.
* Each distinct error return site of the Go code is one constructor of
  `ChatError` (the Go errors are distinct formatted strings).
-/

namespace LMStudio

/-- Chat message record (model.LMAPIMessage): role and content strings. -/
structure LMAPIMessage where
  Role : String
  Content : String
deriving DecidableEq

/-- Request envelope sent to /v1/chat/completions (model.LMStudioChatRequest). -/
structure LMStudioChatRequest where
  Model : String
  Messages : List LMAPIMessage
  Temperature : Rat
deriving DecidableEq

/-- One choice of a chat response (model.LMStudioChatChoice). -/
structure LMStudioChatChoice where
  Index : Int
  FinishReason : String
  Message : LMAPIMessage
deriving DecidableEq

/-- Response envelope from the API (model.LMStudioChatResponse). -/
structure LMStudioChatResponse where
  ID : String
  Object : String
  Created : Int
  Model : String
  Choices : List LMStudioChatChoice
deriving DecidableEq

/-- JSON values, the level at which encoding/json is modelled. -/
inductive JVal where
  | jnull
  | jbool (b : Bool)
  | jnum (n : Int)
  | jstr (s : String)
  | jarr (elems : List JVal)
  | jobj (fields : List (String × JVal))

/-- History map: Go map from conversation id to message slice, as an
association list (key order is irrelevant to every statement below). -/
abbrev HistMap := List (String × List LMAPIMessage)

/-- Go map read m[k]: the zero value (nil slice, here the empty list) for an
absent key. -/
def histGet (m : HistMap) (k : String) : List LMAPIMessage :=
  match m with
  | [] => []
  | e :: rest => if e.1 = k then e.2 else histGet rest k

/-- Go map write m[k] = v: replace the entry if present, add it otherwise. -/
def histSet (m : HistMap) (k : String) (v : List LMAPIMessage) : HistMap :=
  match m with
  | [] => [(k, v)]
  | e :: rest => if e.1 = k then (k, v) :: rest else e :: histSet rest k v

/-- Key membership test on a history map. -/
def histHas (m : HistMap) (k : String) : Bool :=
  match m with
  | [] => false
  | e :: rest => if e.1 = k then true else histHas rest k

/-- Distinct keys, the invariant any Go map representation satisfies. -/
def nodupKeys (m : HistMap) : Prop :=
  (m.map Prod.fst).Nodup

instance (m : HistMap) : Decidable (nodupKeys m) := by
  unfold nodupKeys; infer_instance

/-- Client state (the Binding struct): the fields the embedded operations
read.  MessageHistory is none when the Go map is nil. -/
structure Binding where
  BaseURL : String
  AuthToken : String
  Model : String
  SessionID : String
  MessageHistory : Option HistMap
  PersistHistoryFile : String

/-- Bytes of an HTTP body or of the persistence file: either not a JSON
document at all, or a parsed JSON value. -/
inductive FileData where
  | notJson (raw : String)
  | jsonDoc (v : JVal)

/-- Result of the one HTTPClient.Do call. -/
inductive HTTPOutcome where
  | netErr (msg : String)
  | httpResp (status : Nat) (body : FileData)

/-- Result of the os.OpenFile write in persistHistory. -/
inductive DiskOutcome where
  | ok
  | writeErr (msg : String)

/-- The outside world one ChatWithContext call interacts with. -/
structure World where
  transport : LMStudioChatRequest → HTTPOutcome
  disk : DiskOutcome

/-- Error return sites of binding.go, one constructor per distinct
formatted error: "http error: %w", "API error (%d): %s",
"decode response: %w", "empty response from model",
"error persisting history: %x". -/
inductive ChatError where
  | httpErr (msg : String)
  | apiErr (status : Nat) (body : FileData)
  | decodeErr
  | emptyResponse
  | persistErr (msg : String)

/-- Go json string decode: a JSON string replaces the value, null keeps the
current value, anything else is a type error. -/
def decodeStringInto (cur : String) : JVal → Option String
  | .jstr s => some s
  | .jnull => some cur
  | _ => none

/-- Go json integer decode into an int field. -/
def decodeIntInto (cur : Int) : JVal → Option Int
  | .jnum n => some n
  | .jnull => some cur
  | _ => none

/-- One object field applied to an LMAPIMessage being decoded: tagged
fields "role" and "content", unknown fields ignored. -/
def applyMessageField (m : LMAPIMessage) (f : String × JVal) : Option LMAPIMessage :=
  if f.1 = "role" then
    (decodeStringInto m.Role f.2).map fun r => { m with Role := r }
  else if f.1 = "content" then
    (decodeStringInto m.Content f.2).map fun c => { m with Content := c }
  else
    some m

/-- Decode a JSON value as an LMAPIMessage, starting from the zero struct. -/
def decodeMessage : JVal → Option LMAPIMessage
  | .jobj fields => fields.foldlM applyMessageField { Role := "", Content := "" }
  | .jnull => some { Role := "", Content := "" }
  | _ => none

/-- Decode the elements of a JSON array one by one, failing on the first
element that is not a message. -/
def decodeMessages : List JVal → Option (List LMAPIMessage)
  | [] => some []
  | v :: rest =>
      (decodeMessage v).bind fun msg => (decodeMessages rest).map fun msgs => msg :: msgs

/-- Decode a JSON value as a []LMAPIMessage slice. -/
def decodeMessageList : JVal → Option (List LMAPIMessage)
  | .jarr elems => decodeMessages elems
  | .jnull => some []
  | _ => none

/-- One object field applied to an LMStudioChatChoice being decoded. -/
def applyChoiceField (c : LMStudioChatChoice) (f : String × JVal) : Option LMStudioChatChoice :=
  if f.1 = "index" then
    (decodeIntInto c.Index f.2).map fun n => { c with Index := n }
  else if f.1 = "finish_reason" then
    (decodeStringInto c.FinishReason f.2).map fun s => { c with FinishReason := s }
  else if f.1 = "message" then
    match f.2 with
    | .jnull => some c
    | v => (decodeMessage v).map fun msg => { c with Message := msg }
  else
    some c

/-- Decode a JSON value as an LMStudioChatChoice. -/
def decodeChoice : JVal → Option LMStudioChatChoice
  | .jobj fields =>
      fields.foldlM applyChoiceField
        { Index := 0, FinishReason := "", Message := { Role := "", Content := "" } }
  | .jnull => some { Index := 0, FinishReason := "", Message := { Role := "", Content := "" } }
  | _ => none

/-- Decode the elements of a JSON array one by one as choices. -/
def decodeChoices : List JVal → Option (List LMStudioChatChoice)
  | [] => some []
  | v :: rest =>
      (decodeChoice v).bind fun c => (decodeChoices rest).map fun cs => c :: cs

/-- Decode a JSON value as a []LMStudioChatChoice slice. -/
def decodeChoiceList : JVal → Option (List LMStudioChatChoice)
  | .jarr elems => decodeChoices elems
  | .jnull => some []
  | _ => none

/-- One object field applied to an LMStudioChatResponse being decoded. -/
def applyResponseField (r : LMStudioChatResponse) (f : String × JVal) : Option LMStudioChatResponse :=
  if f.1 = "id" then
    (decodeStringInto r.ID f.2).map fun s => { r with ID := s }
  else if f.1 = "object" then
    (decodeStringInto r.Object f.2).map fun s => { r with Object := s }
  else if f.1 = "created" then
    (decodeIntInto r.Created f.2).map fun n => { r with Created := n }
  else if f.1 = "model" then
    (decodeStringInto r.Model f.2).map fun s => { r with Model := s }
  else if f.1 = "choices" then
    (decodeChoiceList f.2).map fun cs => { r with Choices := cs }
  else
    some r

/-- Decode a JSON value as the LMStudioChatResponse envelope (the
json.Decoder.Decode(&chatResp) step of chatRequest). -/
def decodeChatResponse : JVal → Option LMStudioChatResponse
  | .jobj fields =>
      fields.foldlM applyResponseField
        { ID := "", Object := "", Created := 0, Model := "",
          Choices := [] }
  | .jnull =>
      some { ID := "", Object := "", Created := 0, Model := "", Choices := [] }
  | _ => none

/-- Encode one message the way encoding/json serializes LMAPIMessage. -/
def encodeMessage (m : LMAPIMessage) : JVal :=
  .jobj [("role", .jstr m.Role), ("content", .jstr m.Content)]

/-- Encode the history map as the single JSON object persistHistory writes
(Go sorts the object keys; field order is irrelevant to decoding, so the
list order is kept here). -/
def encodeHist (m : HistMap) : JVal :=
  .jobj (m.map fun e => (e.1, .jarr (e.2.map encodeMessage)))

/-- Fold of json object fields into an existing history map: Go's decode
into a non-nil map keeps entries absent from the object and overwrites the
entry of every field it reads, in field order. -/
def decodeHistFields (cur : HistMap) (fields : List (String × JVal)) : Option HistMap :=
  fields.foldlM (fun acc f => (decodeMessageList f.2).map fun msgs => histSet acc f.1 msgs) cur

/-- Decode a JSON value into an existing history map, the
json.Decoder.Decode(&l.MessageHistory) step of loadPersistedHistory. -/
def decodeHistInto (cur : HistMap) : JVal → Option HistMap
  | .jobj fields => decodeHistFields cur fields
  | .jnull => some cur
  | _ => none

/-- Constant emptyContextID of binding.go. -/
def emptyContextID : String := ""

/-- Constant roleSystem of binding.go. -/
def roleSystem : String := "system"

/-- Constant logicalCompressPrompt of binding.go. -/
def logicalCompressPrompt : String :=
  "Compress logically (summarize) context of this discussion so it will contain only important details dropping noise for further discussion. Return only single message."

/-- Constant summarizeCompressTemperature of binding.go: the float64
literal 0.3, modelled as the exact rational it denotes in the source text
(the value is only threaded through, never computed with). -/
def summarizeCompressTemperature : Rat := 3 / 10

/-- The request struct chatRequest builds before serializing. -/
def buildChatRequest (l : Binding) (messages : List LMAPIMessage) (temperature : Rat) :
    LMStudioChatRequest :=
  { Model := l.Model, Messages := messages, Temperature := temperature }

/-- chatRequest of binding.go: build the envelope, perform the one HTTP
call, check the status, decode the body, reject an empty choice list, and
project the choice messages in array order. -/
def chatRequest (l : Binding) (messages : List LMAPIMessage) (temperature : Rat)
    (transport : LMStudioChatRequest → HTTPOutcome) :
    Except ChatError (List LMAPIMessage) :=
  match transport (buildChatRequest l messages temperature) with
  | .netErr e => .error (.httpErr e)
  | .httpResp status body =>
    if status ≠ 200 then .error (.apiErr status body)
    else
      match body with
      | .notJson _ => .error .decodeErr
      | .jsonDoc v =>
        match decodeChatResponse v with
        | none => .error .decodeErr
        | some chatResp =>
          if chatResp.Choices.length = 0 then .error .emptyResponse
          else .ok (chatResp.Choices.map fun c => c.Message)

/-- persistHistory of binding.go: when a path is configured and the map is
non-nil, write the whole encoded map to the file (or fail with the open
error, leaving the file as it was); otherwise do nothing.  Returns the Go
error and the file state after the call. -/
def persistHistory (l : Binding) (fs : Option FileData) (disk : DiskOutcome) :
    Option String × Option FileData :=
  match l.MessageHistory, disk with
  | some m, .ok =>
      if l.PersistHistoryFile = "" then (none, fs)
      else (none, some (.jsonDoc (encodeHist m)))
  | some _, .writeErr e =>
      if l.PersistHistoryFile = "" then (none, fs)
      else (some e, fs)
  | none, _ => (none, fs)

/-- The message sequence ChatWithContext hands to chatRequest: stored
history first when a context id is given and the map is non-nil. -/
def outgoingMessages (hist : Option HistMap) (contextID : String)
    (messages : List LMAPIMessage) : List LMAPIMessage :=
  if contextID ≠ "" then
    match hist with
    | some m => histGet m contextID ++ messages
    | none => messages
  else messages

/-- Everything one ChatWithContext call produces: the Go return pair
(message slice, error), the client history and file state afterwards, and
the log of requests handed to HTTPClient.Do during the call. -/
structure ChatOutcome where
  msgs : List LMAPIMessage
  err : Option ChatError
  history : Option HistMap
  fileState : Option FileData
  sent : List LMStudioChatRequest

/-- ChatWithContext of binding.go: prepend history when contextID is
non-empty and the map is non-nil, perform the chat request, and on success
append the response messages to history and attempt persistence. -/
def ChatWithContext (l : Binding) (fs : Option FileData) (messages : List LMAPIMessage)
    (contextID : String) (temperature : Rat) (w : World) : ChatOutcome :=
  let outgoing := outgoingMessages l.MessageHistory contextID messages
  let sentReq := buildChatRequest l outgoing temperature
  match chatRequest l outgoing temperature w.transport with
  | .error e =>
      { msgs := [], err := some e, history := l.MessageHistory, fileState := fs,
        sent := [sentReq] }
  | .ok response =>
      if contextID ≠ "" then
        match l.MessageHistory with
        | some m =>
            let m' := histSet m contextID (histGet m contextID ++ response)
            let l' := { l with MessageHistory := some m' }
            match persistHistory l' fs w.disk with
            | (none, fs') =>
                { msgs := response, err := none, history := some m', fileState := fs',
                  sent := [sentReq] }
            | (some e, fs') =>
                { msgs := response, err := some (.persistErr e), history := some m',
                  fileState := fs', sent := [sentReq] }
        | none =>
            { msgs := response, err := none, history := none, fileState := fs,
              sent := [sentReq] }
      else
        { msgs := response, err := none, history := l.MessageHistory, fileState := fs,
          sent := [sentReq] }

/-- Chat of binding.go: ChatWithContext with the empty context id. -/
def Chat (l : Binding) (fs : Option FileData) (messages : List LMAPIMessage)
    (temperature : Rat) (w : World) : ChatOutcome :=
  ChatWithContext l fs messages emptyContextID temperature w

/-- Result of LogicalCompressContext: the returned message, the returned
error, or the Go runtime panic that result[len(result)-1] would raise on an
empty slice. -/
inductive CompressResult where
  | ok (message : LMAPIMessage)
  | err (e : ChatError)
  | outOfBounds

/-- Everything one LogicalCompressContext call produces. -/
structure CompressOutcome where
  result : CompressResult
  history : Option HistMap
  fileState : Option FileData
  sent : List LMStudioChatRequest

/-- LogicalCompressContext of binding.go: prepend the fixed system
instruction, call Chat at temperature 0.3, and return the last element of
the result slice. -/
def LogicalCompressContext (l : Binding) (fs : Option FileData)
    (message : List LMAPIMessage) (w : World) : CompressOutcome :=
  let summaryContext : List LMAPIMessage :=
    { Role := roleSystem, Content := logicalCompressPrompt } :: message
  let c := Chat l fs summaryContext summarizeCompressTemperature w
  match c.err with
  | some e => { result := .err e, history := c.history, fileState := c.fileState, sent := c.sent }
  | none =>
      match c.msgs.getLast? with
      | some x => { result := .ok x, history := c.history, fileState := c.fileState, sent := c.sent }
      | none => { result := .outOfBounds, history := c.history, fileState := c.fileState, sent := c.sent }

/-- Load failure mode: the json decode error (a nonexistent file is defined
as success in the source). -/
inductive LoadError where
  | decodeError
deriving DecidableEq

/-- What loadPersistedHistory returns and leaves behind. -/
structure LoadOutcome where
  err : Option LoadError
  history : Option HistMap

/-- loadPersistedHistory of binding.go: with a configured path, allocate
the map if nil, treat a missing file as success, and otherwise decode the
file into the existing map.  On a decode failure the map the claims observe
is the pre-decode one (the source may leave a partially decoded map; no
statement below depends on the post-error contents). -/
def loadPersistedHistory (l : Binding) (fs : Option FileData) : LoadOutcome :=
  if l.PersistHistoryFile = "" then { err := none, history := l.MessageHistory }
  else
    let hist0 : HistMap :=
      match l.MessageHistory with
      | none => []
      | some m => m
    match fs with
    | none => { err := none, history := some hist0 }
    | some (.notJson _) => { err := some .decodeError, history := some hist0 }
    | some (.jsonDoc v) =>
        match decodeHistInto hist0 v with
        | some m' => { err := none, history := some m' }
        | none => { err := some .decodeError, history := some hist0 }

/-! Basic facts about the history map operations. -/

theorem histGet_histSet_self (m : HistMap) (k : String) (v : List LMAPIMessage) :
    histGet (histSet m k v) k = v := by
  induction m with
  | nil => rw [histSet, histGet, if_pos rfl]
  | cons e rest ih =>
    rw [histSet]
    by_cases h : e.1 = k
    · rw [if_pos h, histGet, if_pos rfl]
    · rw [if_neg h, histGet, if_neg h, ih]

theorem histGet_histSet_other (m : HistMap) (k k' : String) (v : List LMAPIMessage)
    (h : k ≠ k') : histGet (histSet m k v) k' = histGet m k' := by
  induction m with
  | nil => simp only [histSet, histGet]; rw [if_neg h]
  | cons e rest ih =>
    rw [histSet]
    by_cases he : e.1 = k
    · rw [if_pos he]
      simp only [histGet]
      rw [if_neg h, if_neg (fun hh => h (he ▸ hh))]
    · rw [if_neg he]
      simp only [histGet]
      rw [ih]

/-- A successful chatRequest never returns an empty message slice: the
empty choice list is rejected before the projection. -/
theorem chatRequest_ok_ne_nil (l : Binding) (messages : List LMAPIMessage)
    (temperature : Rat) (transport : LMStudioChatRequest → HTTPOutcome)
    (r : List LMAPIMessage)
    (h : chatRequest l messages temperature transport = .ok r) : r ≠ [] := by
  unfold chatRequest at h
  rcases htr : transport (buildChatRequest l messages temperature) with e | ⟨status, body⟩ <;>
    rw [htr] at h
  · simp at h
  · by_cases hs : status = 200
    · subst hs
      rcases body with raw | v
      · simp at h
      · simp only [ne_eq, not_true_eq_false, reduceIte] at h
        rcases hd : decodeChatResponse v with _ | chatResp <;> rw [hd] at h
        · simp at h
        · by_cases hc : chatResp.Choices = []
          · simp [hc] at h
          · simp [hc] at h
            intro hnil
            subst hnil
            simp at h
            exact hc h
    · simp [hs] at h

/-- Every path of ChatWithContext hands the transport exactly one request,
carrying the outgoing message sequence. -/
theorem ChatWithContext_sent (l : Binding) (fs : Option FileData)
    (messages : List LMAPIMessage) (contextID : String) (temperature : Rat) (w : World) :
    (ChatWithContext l fs messages contextID temperature w).sent =
      [buildChatRequest l (outgoingMessages l.MessageHistory contextID messages) temperature] := by
  simp only [ChatWithContext]
  split
  · rfl
  · split
    · split
      · split <;> rfl
      · rfl
    · rfl

/-- Chat (the empty context id) reduces to the bare transport exchange:
no history is read or written and the file is untouched. -/
theorem Chat_empty (l : Binding) (fs : Option FileData) (messages : List LMAPIMessage)
    (temperature : Rat) (w : World) :
    Chat l fs messages temperature w =
      match chatRequest l messages temperature w.transport with
      | .error e =>
          { msgs := [], err := some e, history := l.MessageHistory, fileState := fs,
            sent := [buildChatRequest l messages temperature] }
      | .ok response =>
          { msgs := response, err := none, history := l.MessageHistory, fileState := fs,
            sent := [buildChatRequest l messages temperature] } := by
  rcases hreq : chatRequest l messages temperature w.transport with e | response <;>
    simp [Chat, ChatWithContext, emptyContextID, outgoingMessages, hreq]

/-- C1: for every client state, non-empty conversation id with a non-nil
history map, message list and temperature, a succeeding ChatWithContext
leaves the history for that id equal to its prior value with exactly the
response messages appended; the request messages are not stored. -/
theorem ChatWithContext_success_appends (l : Binding) (fs : Option FileData)
    (messages : List LMAPIMessage) (contextID : String) (temperature : Rat)
    (w : World) (m : HistMap)
    (hcid : contextID ≠ "") (hm : l.MessageHistory = some m)
    (hok : (ChatWithContext l fs messages contextID temperature w).err = none) :
    ∃ m', (ChatWithContext l fs messages contextID temperature w).history = some m' ∧
      histGet m' contextID =
        histGet m contextID ++ (ChatWithContext l fs messages contextID temperature w).msgs := by
  rcases hreq : chatRequest l (outgoingMessages l.MessageHistory contextID messages)
      temperature w.transport with e | response
  · simp [ChatWithContext, hreq] at hok
  · rw [hm] at hreq
    simp only [ChatWithContext, hm, hreq, ne_eq, hcid, not_false_eq_true, ite_true] at hok ⊢
    refine ⟨histSet m contextID (histGet m contextID ++ response), ?_, ?_⟩
    · rcases hdisk : w.disk with _ | werr <;>
        by_cases hpf : l.PersistHistoryFile = "" <;>
        simp [persistHistory, hdisk, hpf] at hok ⊢
    · rcases hdisk : w.disk with _ | werr <;>
        by_cases hpf : l.PersistHistoryFile = "" <;>
        simp [persistHistory, hdisk, hpf, histGet_histSet_self] at hok ⊢

/-- C2: the message sequence handed to the transport is the stored history
for the conversation id followed by the caller-supplied messages when the
id is non-empty and the map is non-nil, and exactly the caller-supplied
messages when the id is empty. -/
theorem ChatWithContext_outgoing (l : Binding) (fs : Option FileData)
    (messages : List LMAPIMessage) (contextID : String) (temperature : Rat) (w : World) :
    (∀ m, contextID ≠ "" → l.MessageHistory = some m →
      (ChatWithContext l fs messages contextID temperature w).sent =
        [buildChatRequest l (histGet m contextID ++ messages) temperature]) ∧
    (contextID = "" →
      (ChatWithContext l fs messages contextID temperature w).sent =
        [buildChatRequest l messages temperature]) := by
  constructor
  · intro m hcid hm
    rw [ChatWithContext_sent]
    simp [outgoingMessages, hcid, hm]
  · intro hcid
    rw [ChatWithContext_sent]
    simp [outgoingMessages, hcid]

/-- C3: when the chat request step fails (transport, API, decode or
empty-response error), ChatWithContext returns that error with no result
messages and leaves the whole history map and the persistence file
untouched. -/
theorem ChatWithContext_failure_preserves (l : Binding) (fs : Option FileData)
    (messages : List LMAPIMessage) (contextID : String) (temperature : Rat)
    (w : World) (e : ChatError)
    (hreq : chatRequest l (outgoingMessages l.MessageHistory contextID messages)
      temperature w.transport = .error e) :
    (ChatWithContext l fs messages contextID temperature w).msgs = [] ∧
    (ChatWithContext l fs messages contextID temperature w).err = some e ∧
    (ChatWithContext l fs messages contextID temperature w).history = l.MessageHistory ∧
    (ChatWithContext l fs messages contextID temperature w).fileState = fs := by
  simp [ChatWithContext, hreq]

/-- C4: a 200 response whose body decodes to an envelope with an empty
choice list makes chatRequest fail with the empty-response error, an error
distinct from the decode, transport and API errors. -/
theorem chatRequest_empty_choices (l : Binding) (messages : List LMAPIMessage)
    (temperature : Rat) (transport : LMStudioChatRequest → HTTPOutcome)
    (v : JVal) (resp : LMStudioChatResponse)
    (hresp : transport (buildChatRequest l messages temperature) =
      .httpResp 200 (.jsonDoc v))
    (hdec : decodeChatResponse v = some resp)
    (hempty : resp.Choices = []) :
    chatRequest l messages temperature transport = .error .emptyResponse ∧
    ChatError.emptyResponse ≠ ChatError.decodeErr ∧
    (∀ s, ChatError.emptyResponse ≠ ChatError.httpErr s) ∧
    (∀ status body, ChatError.emptyResponse ≠ ChatError.apiErr status body) := by
  refine ⟨?_, fun hh => ChatError.noConfusion hh, fun s hh => ChatError.noConfusion hh,
    fun status body hh => ChatError.noConfusion hh⟩
  unfold chatRequest
  rw [hresp]
  simp [hdec, hempty]

/-- C7: with a non-empty conversation id, a successful transport exchange
followed by a failing persist step returns the response messages together
with a non-nil persistence error, the response already appended to the
in-memory history. -/
theorem ChatWithContext_persist_failure (l : Binding) (fs : Option FileData)
    (messages : List LMAPIMessage) (contextID : String) (temperature : Rat)
    (w : World) (m : HistMap) (response : List LMAPIMessage) (e : String)
    (hcid : contextID ≠ "") (hm : l.MessageHistory = some m)
    (hreq : chatRequest l (outgoingMessages l.MessageHistory contextID messages)
      temperature w.transport = .ok response)
    (hpath : l.PersistHistoryFile ≠ "") (hdisk : w.disk = .writeErr e) :
    (ChatWithContext l fs messages contextID temperature w).msgs = response ∧
    (ChatWithContext l fs messages contextID temperature w).err =
      some (.persistErr e) ∧
    (ChatWithContext l fs messages contextID temperature w).history =
      some (histSet m contextID (histGet m contextID ++ response)) := by
  rw [hm] at hreq
  simp [ChatWithContext, hreq, hm, hcid, persistHistory, hdisk, hpath]

/-- C10: with a nil history map, ChatWithContext with any non-empty
conversation id performs no history read, append or persist: the outcome
equals a plain Chat call and the client state is unchanged. -/
theorem ChatWithContext_nilHistory (l : Binding) (fs : Option FileData)
    (messages : List LMAPIMessage) (contextID : String) (temperature : Rat)
    (w : World) (hnil : l.MessageHistory = none) :
    ChatWithContext l fs messages contextID temperature w =
      Chat l fs messages temperature w ∧
    (ChatWithContext l fs messages contextID temperature w).history = none ∧
    (ChatWithContext l fs messages contextID temperature w).fileState = fs := by
  have hmain : ChatWithContext l fs messages contextID temperature w =
      Chat l fs messages temperature w := by
    rcases hreq : chatRequest l messages temperature w.transport with e | response <;>
      simp [ChatWithContext, Chat, emptyContextID, outgoingMessages, hnil, hreq]
  refine ⟨hmain, ?_, ?_⟩ <;> rw [hmain, Chat_empty] <;>
    rcases chatRequest l messages temperature w.transport with e | response <;>
      simp [hnil]

/-- C5: LogicalCompressContext issues exactly one chat call, with the fixed
system compression instruction prepended to the given messages, at the
fixed temperature 0.3, with the empty context id (history and file
untouched), and on success returns the last message of that chat call's
result. -/
theorem LogicalCompressContext_behavior (l : Binding) (fs : Option FileData)
    (message : List LMAPIMessage) (w : World) :
    (LogicalCompressContext l fs message w).sent =
      [buildChatRequest l
        ({ Role := roleSystem, Content := logicalCompressPrompt } :: message)
        summarizeCompressTemperature] ∧
    (LogicalCompressContext l fs message w).history = l.MessageHistory ∧
    (LogicalCompressContext l fs message w).fileState = fs ∧
    summarizeCompressTemperature = 3 / 10 ∧
    (∀ response,
      chatRequest l ({ Role := roleSystem, Content := logicalCompressPrompt } :: message)
        summarizeCompressTemperature w.transport = .ok response →
      (LogicalCompressContext l fs message w).result =
        .ok (response.getLastD { Role := "", Content := "" })) := by
  have hc := Chat_empty l fs
    ({ Role := roleSystem, Content := logicalCompressPrompt } :: message)
    summarizeCompressTemperature w
  refine ⟨?_, ?_, ?_, rfl, ?_⟩
  · rcases hreq : chatRequest l
        ({ Role := roleSystem, Content := logicalCompressPrompt } :: message)
        summarizeCompressTemperature w.transport with e | response <;>
      rw [hreq] at hc <;> simp [LogicalCompressContext, hc] <;>
      cases response.getLast? <;> rfl
  · rcases hreq : chatRequest l
        ({ Role := roleSystem, Content := logicalCompressPrompt } :: message)
        summarizeCompressTemperature w.transport with e | response <;>
      rw [hreq] at hc <;> simp [LogicalCompressContext, hc] <;>
      cases response.getLast? <;> rfl
  · rcases hreq : chatRequest l
        ({ Role := roleSystem, Content := logicalCompressPrompt } :: message)
        summarizeCompressTemperature w.transport with e | response <;>
      rw [hreq] at hc <;> simp [LogicalCompressContext, hc] <;>
      cases response.getLast? <;> rfl
  · intro r2 hresp
    rw [hresp] at hc
    have hne : r2 ≠ [] := chatRequest_ok_ne_nil _ _ _ _ _ hresp
    have hlast : r2.getLast? = some (r2.getLast hne) :=
      List.getLast?_eq_getLast r2 hne
    simp [LogicalCompressContext, hc, hlast, List.getLastD_eq_getLast?]

/-- C6: LogicalCompressContext propagates every failure of the underlying
chat call; the out-of-bounds access outcome is unreachable on every
execution, because a succeeding chat call never produces an empty result
sequence (an empty choice list is already rejected inside chatRequest), so
the final element access is always in bounds. -/
theorem LogicalCompressContext_safe (l : Binding) (fs : Option FileData)
    (message : List LMAPIMessage) (w : World) :
    (LogicalCompressContext l fs message w).result ≠ CompressResult.outOfBounds ∧
    (∀ e, (Chat l fs ({ Role := roleSystem, Content := logicalCompressPrompt } :: message)
        summarizeCompressTemperature w).err = some e →
      (LogicalCompressContext l fs message w).result = .err e) ∧
    (∀ r, chatRequest l ({ Role := roleSystem, Content := logicalCompressPrompt } :: message)
        summarizeCompressTemperature w.transport = .ok r → r ≠ []) := by
  have hc := Chat_empty l fs
    ({ Role := roleSystem, Content := logicalCompressPrompt } :: message)
    summarizeCompressTemperature w
  refine ⟨?_, ?_, fun r hr => chatRequest_ok_ne_nil _ _ _ _ _ hr⟩
  · rcases hreq : chatRequest l
        ({ Role := roleSystem, Content := logicalCompressPrompt } :: message)
        summarizeCompressTemperature w.transport with e | response <;>
      rw [hreq] at hc <;> simp only [LogicalCompressContext, hc]
    · exact fun h => CompressResult.noConfusion h
    · have hne : response ≠ [] := chatRequest_ok_ne_nil _ _ _ _ _ hreq
      rw [List.getLast?_eq_getLast response hne]
      exact fun h => CompressResult.noConfusion h
  · intro e2 he2
    rcases hreq : chatRequest l
        ({ Role := roleSystem, Content := logicalCompressPrompt } :: message)
        summarizeCompressTemperature w.transport with e | response <;>
      rw [hreq] at hc <;> rw [hc] at he2 <;> simp only [LogicalCompressContext, hc]
    · have he : e = e2 := by simpa using he2
      subst he
      rfl
    · simp at he2

/-- Concrete message fixture for the closed instantiations below. -/
def wMsgU0 : LMAPIMessage := { Role := "user", Content := "u0" }

/-- Concrete message fixture for the closed instantiations below. -/
def wMsgU1 : LMAPIMessage := { Role := "user", Content := "u1" }

/-- Concrete 200-response body with one choice. -/
def wRespBody : JVal :=
  .jobj [("choices", .jarr [.jobj [("message",
    .jobj [("role", .jstr "assistant"), ("content", .jstr "r1")])]])]

/-- Concrete client with one stored conversation and no persistence path. -/
def wBinding : Binding :=
  { BaseURL := "http://localhost:1234", AuthToken := "", Model := "m1", SessionID := "s1",
    MessageHistory := some [("c", [wMsgU0])], PersistHistoryFile := "" }

/-- Same client with a configured persistence path. -/
def wBindingPersist : Binding :=
  { wBinding with PersistHistoryFile := "history.json" }

/-- Same client with a nil history map. -/
def wBindingNil : Binding :=
  { wBinding with MessageHistory := none }

/-- World whose transport answers 200 with one choice and whose disk works. -/
def wWorldOk : World :=
  { transport := fun _ => .httpResp 200 (.jsonDoc wRespBody), disk := .ok }

/-- World whose transport fails at the network level. -/
def wWorldNetFail : World :=
  { transport := fun _ => .netErr "connection refused", disk := .ok }

/-- World whose transport works but whose disk write fails. -/
def wWorldDiskFail : World :=
  { transport := fun _ => .httpResp 200 (.jsonDoc wRespBody), disk := .writeErr "disk full" }

/-- Concrete 200-response body with an empty choice list. -/
def wEmptyChoicesBody : JVal := .jobj [("choices", .jarr [])]

/-- World whose transport answers 200 with zero choices. -/
def wWorldEmptyChoices : World :=
  { transport := fun _ => .httpResp 200 (.jsonDoc wEmptyChoicesBody), disk := .ok }

/-- Closed instantiation of ChatWithContext_success_appends. -/
theorem ChatWithContext_success_appends_witness :
    ∃ m', (ChatWithContext wBinding none [wMsgU1] "c" 1 wWorldOk).history = some m' ∧
      histGet m' "c" =
        histGet [("c", [wMsgU0])] "c" ++
          (ChatWithContext wBinding none [wMsgU1] "c" 1 wWorldOk).msgs :=
  ChatWithContext_success_appends wBinding none [wMsgU1] "c" 1 wWorldOk [("c", [wMsgU0])]
    (by decide) rfl (by rfl)

/-- Closed instantiation of ChatWithContext_outgoing, both branches. -/
theorem ChatWithContext_outgoing_witness :
    (ChatWithContext wBinding none [wMsgU1] "c" 1 wWorldOk).sent =
      [buildChatRequest wBinding (histGet [("c", [wMsgU0])] "c" ++ [wMsgU1]) 1] ∧
    (ChatWithContext wBinding none [wMsgU1] "" 1 wWorldOk).sent =
      [buildChatRequest wBinding [wMsgU1] 1] :=
  ⟨(ChatWithContext_outgoing wBinding none [wMsgU1] "c" 1 wWorldOk).1
      [("c", [wMsgU0])] (by decide) rfl,
   (ChatWithContext_outgoing wBinding none [wMsgU1] "" 1 wWorldOk).2 rfl⟩

/-- Closed instantiation of ChatWithContext_failure_preserves. -/
theorem ChatWithContext_failure_preserves_witness :
    (ChatWithContext wBinding none [wMsgU1] "c" 1 wWorldNetFail).msgs = [] ∧
    (ChatWithContext wBinding none [wMsgU1] "c" 1 wWorldNetFail).err =
      some (.httpErr "connection refused") ∧
    (ChatWithContext wBinding none [wMsgU1] "c" 1 wWorldNetFail).history =
      wBinding.MessageHistory ∧
    (ChatWithContext wBinding none [wMsgU1] "c" 1 wWorldNetFail).fileState = none :=
  ChatWithContext_failure_preserves wBinding none [wMsgU1] "c" 1 wWorldNetFail
    (.httpErr "connection refused") (by rfl)

/-- Closed instantiation of chatRequest_empty_choices. -/
theorem chatRequest_empty_choices_witness :
    chatRequest wBinding [wMsgU1] 1 wWorldEmptyChoices.transport = .error .emptyResponse ∧
    ChatError.emptyResponse ≠ ChatError.decodeErr := by
  have h := chatRequest_empty_choices wBinding [wMsgU1] 1 wWorldEmptyChoices.transport
    wEmptyChoicesBody { ID := "", Object := "", Created := 0, Model := "", Choices := [] }
    rfl (by rfl) rfl
  exact ⟨h.1, h.2.1⟩

/-- Closed instantiation of LogicalCompressContext_behavior: the returned
message is the last response message. -/
theorem LogicalCompressContext_behavior_witness :
    (LogicalCompressContext wBinding none [wMsgU1] wWorldOk).result =
      .ok ([{ Role := "assistant", Content := "r1" }].getLastD
        { Role := "", Content := "" }) := by
  have h := LogicalCompressContext_behavior wBinding none [wMsgU1] wWorldOk
  exact h.2.2.2.2 [{ Role := "assistant", Content := "r1" }] (by rfl)

/-- Closed instantiation of LogicalCompressContext_safe: a failing chat
call is propagated. -/
theorem LogicalCompressContext_safe_witness :
    (LogicalCompressContext wBinding none [wMsgU1] wWorldNetFail).result =
      .err (.httpErr "connection refused") := by
  have h := LogicalCompressContext_safe wBinding none [wMsgU1] wWorldNetFail
  exact h.2.1 (.httpErr "connection refused") (by rfl)

/-- Closed instantiation of ChatWithContext_persist_failure. -/
theorem ChatWithContext_persist_failure_witness :
    (ChatWithContext wBindingPersist none [wMsgU1] "c" 1 wWorldDiskFail).msgs =
      [{ Role := "assistant", Content := "r1" }] ∧
    (ChatWithContext wBindingPersist none [wMsgU1] "c" 1 wWorldDiskFail).err =
      some (.persistErr "disk full") ∧
    (ChatWithContext wBindingPersist none [wMsgU1] "c" 1 wWorldDiskFail).history =
      some (histSet [("c", [wMsgU0])] "c"
        (histGet [("c", [wMsgU0])] "c" ++ [{ Role := "assistant", Content := "r1" }])) :=
  ChatWithContext_persist_failure wBindingPersist none [wMsgU1] "c" 1 wWorldDiskFail
    [("c", [wMsgU0])] [{ Role := "assistant", Content := "r1" }] "disk full"
    (by decide) rfl (by rfl) (by decide) rfl

/-- Closed instantiation of ChatWithContext_nilHistory. -/
theorem ChatWithContext_nilHistory_witness :
    ChatWithContext wBindingNil none [wMsgU1] "c" 1 wWorldOk =
      Chat wBindingNil none [wMsgU1] 1 wWorldOk ∧
    (ChatWithContext wBindingNil none [wMsgU1] "c" 1 wWorldOk).history = none ∧
    (ChatWithContext wBindingNil none [wMsgU1] "c" 1 wWorldOk).fileState = none :=
  ChatWithContext_nilHistory wBindingNil none [wMsgU1] "c" 1 wWorldOk rfl

/-! Facts about the modelled encoding/json behavior on the history map. -/

/-- Folding decoded file entries into the current map, the way Go's
Unmarshal populates an existing non-nil map: entries of the JSON object
overwrite, entries absent from it stay. -/
def histMerge (cur : HistMap) (m : HistMap) : HistMap :=
  m.foldl (fun acc e => histSet acc e.1 e.2) cur

theorem decodeMessage_encodeMessage (m : LMAPIMessage) :
    decodeMessage (encodeMessage m) = some m := rfl

theorem decodeMessages_encode (msgs : List LMAPIMessage) :
    decodeMessages (msgs.map encodeMessage) = some msgs := by
  induction msgs with
  | nil => rfl
  | cons m rest ih => simp [decodeMessages, decodeMessage_encodeMessage, ih]

theorem decodeMessageList_encode (msgs : List LMAPIMessage) :
    decodeMessageList (.jarr (msgs.map encodeMessage)) = some msgs := by
  simpa [decodeMessageList] using decodeMessages_encode msgs

theorem decodeHistFields_encode (m : HistMap) (cur : HistMap) :
    decodeHistFields cur (m.map fun e => (e.1, .jarr (e.2.map encodeMessage))) =
      some (histMerge cur m) := by
  induction m generalizing cur with
  | nil => rfl
  | cons e rest ih =>
    have hmerge : histMerge cur (e :: rest) = histMerge (histSet cur e.1 e.2) rest := by
      simp [histMerge]
    rw [hmerge]
    simp only [List.map_cons, decodeHistFields, List.foldlM_cons, decodeMessageList_encode,
      Option.map_some', Option.bind_eq_bind, Option.some_bind]
    exact ih (histSet cur e.1 e.2)

theorem decodeHistInto_encodeHist (cur m : HistMap) :
    decodeHistInto cur (encodeHist m) = some (histMerge cur m) := by
  rw [encodeHist]
  exact decodeHistFields_encode m cur

theorem histHas_false_iff (m : HistMap) (k : String) :
    histHas m k = false ↔ k ∉ m.map Prod.fst := by
  induction m with
  | nil => simp [histHas]
  | cons e rest ih =>
    by_cases he : e.1 = k
    · simp [histHas, he]
    · simp [histHas, he, ih, Ne.symm he]

theorem nodupKeys_cons (e : String × List LMAPIMessage) (rest : HistMap)
    (h : nodupKeys (e :: rest)) : histHas rest e.1 = false ∧ nodupKeys rest := by
  rw [nodupKeys, List.map_cons, List.nodup_cons] at h
  exact ⟨(histHas_false_iff rest e.1).2 h.1, h.2⟩

theorem histSet_of_not_has (acc : HistMap) (k : String) (v : List LMAPIMessage)
    (h : histHas acc k = false) : histSet acc k v = acc ++ [(k, v)] := by
  induction acc with
  | nil => rfl
  | cons e rest ih =>
    rw [histHas] at h
    by_cases he : e.1 = k
    · rw [if_pos he] at h; cases h
    · rw [if_neg he] at h
      rw [histSet, if_neg he, ih h]
      rfl

theorem histHas_append (a b : HistMap) (k : String) :
    histHas (a ++ b) k = (histHas a k || histHas b k) := by
  induction a with
  | nil => rfl
  | cons e rest ih => by_cases he : e.1 = k <;> simp [histHas, he, ih]

theorem histMerge_no_overlap (m : HistMap) (acc : HistMap)
    (hdisj : ∀ e ∈ m, histHas acc e.1 = false) (hnodup : nodupKeys m) :
    histMerge acc m = acc ++ m := by
  induction m generalizing acc with
  | nil => simp [histMerge]
  | cons e rest ih =>
    obtain ⟨hek, hnod'⟩ := nodupKeys_cons e rest hnodup
    have hacc : histHas acc e.1 = false := hdisj e (List.mem_cons_self e rest)
    have hmerge : histMerge acc (e :: rest) = histMerge (histSet acc e.1 e.2) rest := by
      simp [histMerge]
    rw [hmerge, histSet_of_not_has acc e.1 e.2 hacc]
    rw [ih (acc ++ [(e.1, e.2)]) ?_ hnod']
    · simp
    · intro e' he'
      rw [histHas_append]
      have h1 : histHas acc e'.1 = false := hdisj e' (List.mem_cons_of_mem e he')
      have h2 : histHas [(e.1, e.2)] e'.1 = false := by
        have : e.1 ≠ e'.1 := by
          intro hcontra
          rw [histHas_false_iff] at hek
          exact hek (hcontra ▸ List.mem_map_of_mem Prod.fst he')
        simp [histHas, this]
      rw [h1, h2]
      rfl

theorem histMerge_nil_of_nodup (m : HistMap) (hnodup : nodupKeys m) :
    histMerge [] m = m := by
  simpa using histMerge_no_overlap m [] (fun _ _ => rfl) hnodup

theorem histGet_histMerge (m : HistMap) (cur : HistMap) (k : String)
    (hnodup : nodupKeys m) :
    histGet (histMerge cur m) k =
      if histHas m k then histGet m k else histGet cur k := by
  induction m generalizing cur with
  | nil => simp [histMerge, histHas]
  | cons e rest ih =>
    obtain ⟨hek, hnod'⟩ := nodupKeys_cons e rest hnodup
    have hmerge : histMerge cur (e :: rest) = histMerge (histSet cur e.1 e.2) rest := by
      simp [histMerge]
    rw [hmerge, ih (histSet cur e.1 e.2) hnod']
    by_cases hk : histHas rest k = true
    · have hne : e.1 ≠ k := by
        intro hcontra
        rw [hcontra] at hek
        rw [hek] at hk
        cases hk
      rw [histHas, if_neg hne, hk, if_pos rfl, histGet, if_neg hne, if_pos rfl]
    · rw [Bool.not_eq_true] at hk
      rw [hk]
      by_cases hke : e.1 = k
      · rw [if_neg (by simp), histHas, if_pos hke, histGet, if_pos hke, hke,
          histGet_histSet_self, if_pos rfl]
      · rw [if_neg (by simp), histHas, if_neg hke, hk, histGet, if_neg hke,
          if_neg (by simp), histGet_histSet_other cur e.1 k e.2 hke]

/-- A client holding the given store and persistence path (the other
configuration fields do not influence persistence or loading). -/
def mkStoreBinding (hist : Option HistMap) (path : String) : Binding :=
  { BaseURL := "", AuthToken := "", Model := "", SessionID := "",
    MessageHistory := hist, PersistHistoryFile := path }

/-- Client for the load counterexample: conversation "a" already in memory. -/
def c8Binding : Binding := mkStoreBinding (some [("a", [wMsgU0])]) "history.json"

/-- Well-formed persisted file holding only conversation "b". -/
def c8File : Option FileData := some (.jsonDoc (encodeHist [("b", [wMsgU1])]))

/-- C8 counterexample: loading an existing well-formed file into a client
whose in-memory map already holds another conversation does not replace
the mapping with the file's mapping.  The load succeeds, yet entry "a"
(absent from the file, whose mapping maps "a" to nothing) survives with its
old value, so the resulting mapping is not the file's mapping. -/
theorem loadPersistedHistory_no_replace :
    (loadPersistedHistory c8Binding c8File).err = none ∧
    (loadPersistedHistory c8Binding c8File).history ≠ some [("b", [wMsgU1])] ∧
    histGet ((loadPersistedHistory c8Binding c8File).history.getD []) "a" = [wMsgU0] ∧
    histGet [("b", [wMsgU1])] "a" = [] := by
  refine ⟨rfl, ?_, rfl, rfl⟩
  decide

/-- C8 amended: with a configured path, loading an existing well-formed
file merges the file's mapping into the in-memory mapping — entries for
ids present in the file are replaced by the file's values, entries absent
from the file are retained (this equals the file's mapping exactly when the
store starts empty, as at construction); a missing file is success with
the store unchanged (allocating an empty map when it was nil); an existing
malformed file fails with the decode error. -/
theorem loadPersistedHistory_spec (l : Binding) (fs : Option FileData)
    (hpath : l.PersistHistoryFile ≠ "") :
    (fs = none → (loadPersistedHistory l fs).err = none ∧
      (loadPersistedHistory l fs).history = some (l.MessageHistory.getD [])) ∧
    (∀ raw, fs = some (.notJson raw) →
      (loadPersistedHistory l fs).err = some .decodeError) ∧
    (∀ v, fs = some (.jsonDoc v) →
      decodeHistInto (l.MessageHistory.getD []) v = none →
      (loadPersistedHistory l fs).err = some .decodeError) ∧
    (∀ m2, nodupKeys m2 → fs = some (.jsonDoc (encodeHist m2)) →
      (loadPersistedHistory l fs).err = none ∧
      (loadPersistedHistory l fs).history =
        some (histMerge (l.MessageHistory.getD []) m2) ∧
      (∀ k, histGet (histMerge (l.MessageHistory.getD []) m2) k =
        if histHas m2 k then histGet m2 k else histGet (l.MessageHistory.getD []) k)) := by
  have hbase : (match l.MessageHistory with
      | none => ([] : HistMap)
      | some m => m) = l.MessageHistory.getD [] := by
    cases l.MessageHistory <;> rfl
  refine ⟨?_, ?_, ?_, ?_⟩
  · intro hfs
    subst hfs
    simp [loadPersistedHistory, hpath, hbase]
  · intro raw hfs
    subst hfs
    simp [loadPersistedHistory, hpath]
  · intro v hfs hdec
    subst hfs
    simp [loadPersistedHistory, hpath, hbase, hdec]
  · intro m2 hnodup hfs
    subst hfs
    refine ⟨?_, ?_, fun k => histGet_histMerge m2 _ k hnodup⟩ <;>
      simp [loadPersistedHistory, hpath, hbase, decodeHistInto_encodeHist]

/-- Closed instantiation of loadPersistedHistory_spec: merging the file of
conversation "b" into a store holding conversation "a". -/
theorem loadPersistedHistory_spec_witness :
    (loadPersistedHistory c8Binding c8File).err = none ∧
    (loadPersistedHistory c8Binding c8File).history =
      some (histMerge [("a", [wMsgU0])] [("b", [wMsgU1])]) := by
  have h := (loadPersistedHistory_spec c8Binding c8File (by decide)).2.2.2
    [("b", [wMsgU1])] (by decide) rfl
  exact ⟨h.1, h.2.1⟩

/-- C9: persisting any history mapping (distinct conversation ids mapped to
non-empty message sequences of arbitrary role and content strings) and
loading the persisted file into a fresh empty store reproduces exactly the
original mapping. -/
theorem persist_load_roundtrip (m : HistMap) (path : String) (fs0 : Option FileData)
    (hpath : path ≠ "") (hnodup : nodupKeys m) (hne : ∀ e ∈ m, e.2 ≠ []) :
    (persistHistory (mkStoreBinding (some m) path) fs0 .ok).1 = none ∧
    (loadPersistedHistory (mkStoreBinding (some []) path)
        (persistHistory (mkStoreBinding (some m) path) fs0 .ok).2).err = none ∧
    (loadPersistedHistory (mkStoreBinding (some []) path)
        (persistHistory (mkStoreBinding (some m) path) fs0 .ok).2).history = some m := by
  have hpersist : persistHistory (mkStoreBinding (some m) path) fs0 .ok =
      (none, some (.jsonDoc (encodeHist m))) := by
    simp [persistHistory, mkStoreBinding, hpath]
  rw [hpersist]
  refine ⟨rfl, ?_, ?_⟩ <;>
    simp [loadPersistedHistory, mkStoreBinding, hpath, decodeHistInto_encodeHist,
      histMerge_nil_of_nodup m hnodup]

/-- Closed instantiation of persist_load_roundtrip. -/
theorem persist_load_roundtrip_witness :
    (persistHistory (mkStoreBinding (some [("c1", [wMsgU0])]) "h.json") none .ok).1 = none ∧
    (loadPersistedHistory (mkStoreBinding (some []) "h.json")
        (persistHistory (mkStoreBinding (some [("c1", [wMsgU0])]) "h.json") none .ok).2).err =
      none ∧
    (loadPersistedHistory (mkStoreBinding (some []) "h.json")
        (persistHistory (mkStoreBinding (some [("c1", [wMsgU0])]) "h.json") none .ok).2).history =
      some [("c1", [wMsgU0])] :=
  persist_load_roundtrip [("c1", [wMsgU0])] "h.json" none (by decide) (by decide) (by decide)

end LMStudio
